import Mathlib

/-!
Shallow embedding of the Tetris core from src/main.rs.

The grid is a 20×10 matrix of byte cells (255 = empty, a value below
NUM_COLOURS = locked colour index).  Rust's bounds-checked accesses
(slice::get with an i8 cast to usize) are modelled by an Option-valued
index: a negative i8 sign-extends to a huge usize in Rust and therefore
always fails the bounds check, which we model by mapping negative
coordinates to none.  Machine integers are modelled by Int (coordinates)
and Nat (cells, counters, score); all arithmetic in the simulated
scenarios stays far below the 8 and 32 bit bounds, so wrap-around never
occurs in the modelled states.
-/

def GAME_GRID_WIDTH : Nat := 10
def GAME_GRID_HEIGHT : Nat := 20
def NUM_COLOURS : Nat := 7
def FRAMES_PER_MOVE : Nat := 18

/-- A board position; signed because pieces live partly above the board. -/
structure Pos where
  x : Int
  y : Int
deriving DecidableEq, Repr

/-- Models Rust's cast i8-to-usize followed by a bounds-checked access:
a negative value sign-extends to at least 2^56, far beyond any row or
column count, so the access fails; we map negatives to none directly. -/
def uidx (i : Int) : Option Nat :=
  if 0 ≤ i then some i.toNat else none

/-- The play field: 20 rows of 10 byte cells (255 = empty). -/
structure Grid where
  grid : List (List Nat)
deriving DecidableEq, Repr

/-- Grid::new — all cells 255. -/
def Grid.new : Grid :=
  ⟨List.replicate GAME_GRID_HEIGHT (List.replicate GAME_GRID_WIDTH 255)⟩

/-- The bounds-checked cell read shared by is_free_or_above / set:
grid.get(y as usize).and_then(row.get(x as usize)). -/
def Grid.cellAt (g : Grid) (pos : Pos) : Option Nat :=
  (uidx pos.y).bind fun y =>
    (g.grid[y]?).bind fun row =>
      (uidx pos.x).bind fun x => row[x]?

/-- Grid::is_free_or_above. -/
def Grid.is_free_or_above (g : Grid) (pos : Pos) : Bool :=
  match g.cellAt pos with
  | some c => decide (NUM_COLOURS ≤ c)
  | none => decide (pos.y < 0 ∧ 0 ≤ pos.x ∧ pos.x < 10)

/-- Grid::set — writes a cell if in bounds; the Bool reports success. -/
def Grid.set (g : Grid) (pos : Pos) (c : Nat) : Grid × Bool :=
  match uidx pos.y with
  | none => (g, false)
  | some y =>
    match g.grid[y]? with
    | none => (g, false)
    | some row =>
      match uidx pos.x with
      | none => (g, false)
      | some x =>
        if x < row.length then (⟨g.grid.set y (row.set x c)⟩, true)
        else (g, false)

/-- The row-copy loop of check_for_line:
for yy in (1..=y).rev() { grid[yy] = grid[yy-1] }. -/
def shiftRows (g : List (List Nat)) : Nat → List (List Nat)
  | 0 => g
  | n + 1 => shiftRows (g.set (n + 1) (g[n]?.getD [])) n

/-- Grid::check_for_line.  The i8 argument is in [0, height) at every
call site (rows come from successful set calls), so we take a Nat. -/
def Grid.check_for_line (g : Grid) (y : Nat) : Grid × Bool :=
  let done := (g.grid[y]?.getD []).all (fun c => decide (c < NUM_COLOURS))
  if done then
    (⟨(shiftRows g.grid y).set 0 (List.replicate 10 255)⟩, true)
  else (g, false)

/-- Dimension well-formedness: 20 rows of 10 cells, as built by Grid::new
and preserved by every operation. -/
def Grid.WF (g : Grid) : Prop :=
  g.grid.length = GAME_GRID_HEIGHT ∧ ∀ row ∈ g.grid, row.length = GAME_GRID_WIDTH

instance (g : Grid) : Decidable g.WF := by
  unfold Grid.WF; infer_instance

/-- A tetromino: a colour index and four offsets from the pivot. -/
structure Piece where
  colour : Nat
  offsets : List Pos
deriving DecidableEq, Repr

/-- The fixed offset table of Piece::get_random, indexed by the drawn
colour; the random draw rand_range(0..7) itself is modelled as the next
element of an abstract stream of values in [0, 7) carried by the state. -/
def pieceShape (colour : Fin 7) : Piece :=
  { colour := colour.val
    offsets :=
      match colour with
      | 0 => [⟨-1, -1⟩, ⟨0, -1⟩, ⟨1, -1⟩, ⟨-1, 0⟩]
      | 1 => [⟨-1, 0⟩, ⟨0, 0⟩, ⟨1, 0⟩, ⟨2, 0⟩]
      | 2 => [⟨-1, -1⟩, ⟨0, -1⟩, ⟨1, -1⟩, ⟨0, 0⟩]
      | 3 => [⟨0, -1⟩, ⟨1, -1⟩, ⟨-1, 0⟩, ⟨0, 0⟩]
      | 4 => [⟨-1, -1⟩, ⟨0, -1⟩, ⟨0, 0⟩, ⟨1, 0⟩]
      | 5 => [⟨-1, -1⟩, ⟨0, -1⟩, ⟨-1, 0⟩, ⟨0, 0⟩]
      | 6 => [⟨-1, -1⟩, ⟨0, -1⟩, ⟨1, -1⟩, ⟨1, 0⟩] }

/-- Piece::rotate_left — each offset (x, y) becomes (y, -x). -/
def Piece.rotate_left (p : Piece) : Piece :=
  { p with offsets := p.offsets.map (fun o => ⟨o.y, -o.x⟩) }

/-- Piece::rotate_right — each offset (x, y) becomes (-y, x). -/
def Piece.rotate_right (p : Piece) : Piece :=
  { p with offsets := p.offsets.map (fun o => ⟨-o.y, o.x⟩) }

/-- Piece::points — absolute cells at a given pivot position. -/
def Piece.points (p : Piece) (offset : Pos) : List Pos :=
  p.offsets.map (fun q => ⟨offset.x + q.x, offset.y + q.y⟩)

/-- A piece bound to an absolute position. -/
structure MovingPiece where
  pos : Pos
  piece : Piece
deriving DecidableEq, Repr

/-- MovingPiece::new — spawn at (width/2, -2). -/
def MovingPiece.new (piece : Piece) : MovingPiece :=
  { pos := ⟨5, -2⟩, piece }

/-- The player commands of the Move enum. -/
inductive Move
  | Left | Right | RotLeft | RotRight
deriving DecidableEq, Repr

/-- The whole game state.  The Rand32 generator is modelled by an
abstract stream of draws in [0, 7) plus a cursor. -/
structure GameState where
  grid : Grid
  gameover : Bool
  move_frames : Nat
  score : Nat
  rngStream : Nat → Fin 7
  rngIdx : Nat
  next_piece : Piece
  cur_piece : Option MovingPiece

/-- The candidate built inside GameState::mv for a command. -/
def mvCandidate (mp : MovingPiece) (m : Move) : MovingPiece :=
  match m with
  | .Left => { mp with pos := ⟨mp.pos.x - 1, mp.pos.y⟩ }
  | .Right => { mp with pos := ⟨mp.pos.x + 1, mp.pos.y⟩ }
  | .RotLeft => { mp with piece := mp.piece.rotate_left }
  | .RotRight => { mp with piece := mp.piece.rotate_right }

/-- GameState::mv — apply the candidate only if every absolute cell is
free or above; the early-return loop is the all check. -/
def GameState.mv (s : GameState) (m : Move) : GameState :=
  match s.cur_piece with
  | none => s
  | some mp =>
    let new_mp := mvCandidate mp m
    if (new_mp.piece.points new_mp.pos).all s.grid.is_free_or_above then
      { s with cur_piece := some new_mp }
    else s

/-- GameState::move_down — soft drop advances the timer by half a period. -/
def GameState.move_down (s : GameState) : GameState :=
  { s with move_frames := s.move_frames + FRAMES_PER_MOVE / 2 }

/-- The locking write loop: insert each y into the line set, write the
cell, break on the first rejected write.  Returns the grid after the
writes performed, and whether all writes succeeded. -/
def lockWrites (g : Grid) (c : Nat) : List Pos → Grid × Bool
  | [] => (g, true)
  | p :: rest =>
    let r := g.set p c
    if r.2 then lockWrites r.1 c rest else (r.1, false)

/-- The clearing loop: run check_for_line on each collected row (in the
ascending order a BTreeSet iterates in) and count the rows cleared. -/
def clearLines (g : Grid) : List Int → Grid × Nat
  | [] => (g, 0)
  | y :: rest =>
    let r := g.check_for_line y.toNat
    let r2 := clearLines r.1 rest
    (r2.1, (if r.2 then 1 else 0) + r2.2)

/-- The score for a number of cleared rows; none models the
unimplemented panic branch for five or more. -/
def scoreFor : Nat → Option Nat
  | 0 => some 0
  | 1 => some 40
  | 2 => some 100
  | 3 => some 300
  | 4 => some 1200
  | _ => none

/-- The distinct touched rows, ascending — the BTreeSet of cell ys. -/
def lineSet (pts : List Pos) : List Int :=
  ((pts.map Pos.y).toFinset).sort (· ≤ ·)

/-- The lock branch of update: write the piece at its current position;
on any rejected write set gameover (earlier writes persist, nothing else
changes); otherwise clear the active piece, check the touched rows and
add the score for the cleared count. -/
def GameState.lockPiece (s : GameState) (cp : MovingPiece) : GameState :=
  let pts := cp.piece.points cp.pos
  let w := lockWrites s.grid cp.piece.colour pts
  if w.2 then
    let r := clearLines w.1 (lineSet pts)
    { s with grid := r.1, cur_piece := none, score := s.score + (scoreFor r.2).getD 0 }
  else
    { s with grid := w.1, gameover := true }

/-- Spawning: the pre-generated next piece becomes active, a fresh next
piece is drawn from the stream. -/
def GameState.spawn (s : GameState) : GameState :=
  { s with cur_piece := some (MovingPiece.new s.next_piece)
           next_piece := pieceShape (s.rngStream s.rngIdx)
           rngIdx := s.rngIdx + 1 }

/-- One iteration of the fixed-rate update loop: increment the move
timer (subtracting the period when it exceeds it), then — unless game
over — fall, lock or spawn. -/
def GameState.tick (s : GameState) : GameState :=
  let fired := FRAMES_PER_MOVE < s.move_frames + 1
  let s1 := { s with move_frames :=
    if fired then s.move_frames + 1 - FRAMES_PER_MOVE else s.move_frames + 1 }
  if s1.gameover then s1
  else
    match s1.cur_piece with
    | some cp =>
      if fired then
        let new_pos : Pos := ⟨cp.pos.x, cp.pos.y + 1⟩
        if (cp.piece.points new_pos).all s1.grid.is_free_or_above then
          { s1 with cur_piece := some { cp with pos := new_pos } }
        else
          s1.lockPiece cp
      else s1
    | none => s1.spawn

/-- The game-relevant keys of key_down_event. -/
inductive Key
  | left | right | rotLeft | rotRight | softDrop | other
deriving DecidableEq, Repr

/-- GameState::key_down_event — ignore everything once game over,
otherwise dispatch to mv / move_down. -/
def GameState.key_down_event (s : GameState) (k : Key) : GameState :=
  if s.gameover then s
  else
    match k with
    | .left => s.mv .Left
    | .right => s.mv .Right
    | .rotLeft => s.mv .RotLeft
    | .rotRight => s.mv .RotRight
    | .softDrop => s.move_down
    | .other => s

/-- The two external stimuli: a fixed-rate tick and a key press. -/
inductive Event
  | tick
  | key (k : Key)

def GameState.step (s : GameState) : Event → GameState
  | .tick => s.tick
  | .key k => s.key_down_event k

def GameState.run (s : GameState) : List Event → GameState
  | [] => s
  | e :: es => (s.step e).run es

/-- GameState::new — empty grid, no active piece, a first next piece
drawn from the stream. -/
def GameState.new (stream : Nat → Fin 7) : GameState :=
  { grid := Grid.new
    gameover := false
    move_frames := 0
    score := 0
    rngStream := stream
    rngIdx := 1
    next_piece := pieceShape (stream 0)
    cur_piece := none }

/-! ### Basic lemmas about the grid operations -/

theorem uidx_of_neg {i : Int} (h : i < 0) : uidx i = none := by
  simp [uidx]; omega

theorem uidx_of_nonneg {i : Int} (h : 0 ≤ i) : uidx i = some i.toNat := by
  simp [uidx, h]

theorem cellAt_eq_none_of_out {g : Grid} (hwf : g.WF) {pos : Pos}
    (h : ¬(0 ≤ pos.y ∧ pos.y < 20 ∧ 0 ≤ pos.x ∧ pos.x < 10)) :
    g.cellAt pos = none := by
  obtain ⟨hlen, hrow⟩ := hwf
  unfold Grid.cellAt
  rcases lt_or_le pos.y 0 with hy | hy
  · simp [uidx_of_neg hy]
  · rw [uidx_of_nonneg hy]
    rcases le_or_lt 20 pos.y with hy2 | hy2
    · have : g.grid[pos.y.toNat]? = none := by
        rw [List.getElem?_eq_none]
        rw [hlen]; unfold GAME_GRID_HEIGHT; omega
      simp [this]
    · have hyd : pos.y.toNat < g.grid.length := by
        rw [hlen]; unfold GAME_GRID_HEIGHT; omega
      rw [Option.some_bind, List.getElem?_eq_getElem hyd]
      rcases lt_or_le pos.x 0 with hx | hx
      · simp [uidx_of_neg hx]
      · rw [Option.some_bind, uidx_of_nonneg hx]
        have hx2 : 10 ≤ pos.x := by omega
        have : (g.grid[pos.y.toNat]).length = 10 := hrow _ (g.grid.getElem_mem hyd)
        rw [Option.some_bind, List.getElem?_eq_none]
        rw [this]; omega

theorem cellAt_eq_some_of_in {g : Grid} (hwf : g.WF) {pos : Pos}
    (hy : 0 ≤ pos.y) (hy2 : pos.y < 20) (hx : 0 ≤ pos.x) (hx2 : pos.x < 10) :
    ∃ (hyd : pos.y.toNat < g.grid.length) (hxd : pos.x.toNat < (g.grid[pos.y.toNat]).length),
      g.cellAt pos = some ((g.grid[pos.y.toNat])[pos.x.toNat]) := by
  obtain ⟨hlen, hrow⟩ := hwf
  have hyd : pos.y.toNat < g.grid.length := by
    rw [hlen]; unfold GAME_GRID_HEIGHT; omega
  have hlr : (g.grid[pos.y.toNat]).length = 10 := hrow _ (g.grid.getElem_mem hyd)
  have hxd : pos.x.toNat < (g.grid[pos.y.toNat]).length := by
    rw [hlr]; omega
  refine ⟨hyd, hxd, ?_⟩
  unfold Grid.cellAt
  rw [uidx_of_nonneg hy, Option.some_bind, List.getElem?_eq_getElem hyd,
    Option.some_bind, uidx_of_nonneg hx, Option.some_bind,
    List.getElem?_eq_getElem hxd]

theorem cellAt_mem {g : Grid} {pos : Pos} {c : Nat} (h : g.cellAt pos = some c) :
    ∃ row ∈ g.grid, c ∈ row := by
  unfold Grid.cellAt at h
  rcases h1 : uidx pos.y with _ | y
  · rw [h1] at h; simp at h
  · rw [h1, Option.some_bind] at h
    rcases h2 : g.grid[y]? with _ | row
    · rw [h2] at h; simp at h
    · rw [h2, Option.some_bind] at h
      rcases h3 : uidx pos.x with _ | x
      · rw [h3] at h; simp at h
      · rw [h3, Option.some_bind] at h
        exact ⟨row, List.getElem?_mem h2, List.getElem?_mem h⟩

/-- Cell-value well-formedness: a cell is the empty sentinel 255 or a
locked colour index below NUM_COLOURS. -/
def cellOK (c : Nat) : Prop := c = 255 ∨ c < NUM_COLOURS

def Grid.cellsOK (g : Grid) : Prop := ∀ row ∈ g.grid, ∀ c ∈ row, cellOK c

/-- C3: for every position, is_free_or_above returns true iff the
position is in bounds with an empty cell, or above the board (y < 0)
with x within the horizontal bounds; every other out-of-bounds position
and every occupied in-bounds cell yields false.  The function reads the
grid only (in the embedding it is a pure function of the grid). -/
theorem is_free_or_above_spec (g : Grid) (hwf : g.WF) (hok : g.cellsOK) (pos : Pos) :
    g.is_free_or_above pos = true ↔
      ((0 ≤ pos.y ∧ pos.y < 20 ∧ 0 ≤ pos.x ∧ pos.x < 10 ∧ g.cellAt pos = some 255)
        ∨ (pos.y < 0 ∧ 0 ≤ pos.x ∧ pos.x < 10)) := by
  by_cases hin : 0 ≤ pos.y ∧ pos.y < 20 ∧ 0 ≤ pos.x ∧ pos.x < 10
  · obtain ⟨hy, hy2, hx, hx2⟩ := hin
    obtain ⟨hyd, hxd, hc⟩ := cellAt_eq_some_of_in hwf hy hy2 hx hx2
    have hmem : cellOK ((g.grid[pos.y.toNat])[pos.x.toNat]) := by
      obtain ⟨row, hrmem, hcmem⟩ := cellAt_mem hc
      exact hok row hrmem _ hcmem
    unfold Grid.is_free_or_above
    rw [hc]
    dsimp only
    constructor
    · intro hdec
      simp only [decide_eq_true_eq] at hdec
      refine Or.inl ⟨hy, hy2, hx, hx2, ?_⟩
      rcases hmem with h255 | hlt
      · rw [h255]
      · exact absurd hlt (by omega)
    · rintro (⟨_, _, _, _, h⟩ | ⟨hneg, _, _⟩)
      · injection h with h
        simp only [decide_eq_true_eq, h]
        unfold NUM_COLOURS
        omega
      · exact absurd hneg (by omega)
  · have hnone := cellAt_eq_none_of_out hwf hin
    unfold Grid.is_free_or_above
    rw [hnone]
    simp only [decide_eq_true_eq]
    constructor
    · intro h; exact Or.inr h
    · rintro (⟨hy, hy2, hx, hx2, hc⟩ | h)
      · exact absurd ⟨hy, hy2, hx, hx2⟩ hin
      · exact h

instance (c : Nat) : Decidable (cellOK c) := by
  unfold cellOK; infer_instance

instance (g : Grid) : Decidable g.cellsOK := by
  unfold Grid.cellsOK; infer_instance

theorem shiftRows_length (g : List (List Nat)) (y : Nat) :
    (shiftRows g y).length = g.length := by
  induction y generalizing g with
  | zero => rfl
  | succ n ih => rw [shiftRows, ih, List.length_set]

theorem shiftRows_get (g : List (List Nat)) (y : Nat) (hy : y < g.length) (k : Nat) :
    (shiftRows g y)[k]? = if 1 ≤ k ∧ k ≤ y then g[k - 1]? else g[k]? := by
  induction y generalizing g with
  | zero => rw [shiftRows, if_neg (by omega)]
  | succ n ih =>
    rw [shiftRows]
    have hlen' : (g.set (n + 1) (g[n]?.getD [])).length = g.length := List.length_set ..
    rw [ih _ (by omega)]
    by_cases h1 : 1 ≤ k ∧ k ≤ n
    · rw [if_pos h1, if_pos (by omega), List.getElem?_set_ne (by omega)]
    · by_cases h2 : k = n + 1
      · subst h2
        rw [if_neg h1, if_pos (by omega),
          List.getElem?_set_self (by omega)]
        have hn2 : n < g.length := by omega
        simp [List.getElem?_eq_getElem hn2]
      · rw [if_neg h1, if_neg (by omega), List.getElem?_set_ne (by omega)]

/-- C1: check_for_line y (for y in [0, height)) returns true iff every
cell of row y is locked; on success row 0 becomes all-empty, every row
1..y holds the previous contents of the row above it, and every row
below y is unchanged; on failure the grid is unchanged. -/
theorem check_for_line_spec (g : Grid) (hwf : g.WF) (y : Nat)
    (hy : y < GAME_GRID_HEIGHT) :
    ((g.check_for_line y).2 = true ↔ ∀ c ∈ g.grid[y]?.getD [], c < NUM_COLOURS)
    ∧ ((g.check_for_line y).2 = true →
        (g.check_for_line y).1.grid[0]? = some (List.replicate 10 255)
        ∧ (∀ k, 1 ≤ k → k ≤ y → (g.check_for_line y).1.grid[k]? = g.grid[k - 1]?)
        ∧ (∀ k, y < k → (g.check_for_line y).1.grid[k]? = g.grid[k]?))
    ∧ ((g.check_for_line y).2 = false → (g.check_for_line y).1 = g) := by
  have hlen : g.grid.length = GAME_GRID_HEIGHT := hwf.1
  have hylen : y < g.grid.length := by rw [hlen]; exact hy
  rcases hdone : (g.grid[y]?.getD []).all (fun c => decide (c < NUM_COLOURS)) with _ | _
  · have hres : g.check_for_line y = (g, false) := by
      unfold Grid.check_for_line; rw [hdone]; rfl
    rw [hres]
    refine ⟨?_, ?_, ?_⟩
    · constructor
      · intro h; cases h
      · intro hall
        exfalso
        have hT : (g.grid[y]?.getD []).all (fun c => decide (c < NUM_COLOURS)) = true := by
          rw [List.all_eq_true]
          intro c hc
          exact decide_eq_true (hall c hc)
        rw [hdone] at hT
        cases hT
    · intro h; cases h
    · intro _; rfl
  · have hres : g.check_for_line y
        = (⟨(shiftRows g.grid y).set 0 (List.replicate 10 255)⟩, true) := by
      unfold Grid.check_for_line; rw [hdone]; rfl
    rw [hres]
    have hslen : (shiftRows g.grid y).length = g.grid.length := shiftRows_length ..
    refine ⟨?_, ?_, ?_⟩
    · constructor
      · intro _ c hc
        exact of_decide_eq_true (List.all_eq_true.mp hdone c hc)
      · intro _; rfl
    · refine fun _ => ⟨?_, fun k hk1 hk2 => ?_, fun k hk => ?_⟩
      · rw [List.getElem?_set_self (by omega)]
      · rw [List.getElem?_set_ne (by omega), shiftRows_get _ _ hylen, if_pos ⟨hk1, hk2⟩]
      · rw [List.getElem?_set_ne (by omega), shiftRows_get _ _ hylen, if_neg (by omega)]
    · intro h; cases h

/-- C4: for each of the 7 canonical shapes, rotate_left maps every
offset (x, y) to (y, -x) and rotate_right maps it to (-y, x); four
successive rotate_left calls restore the original offsets exactly, and
rotate_right inverts rotate_left in either order. -/
theorem rotation_group_spec : ∀ i : Fin 7,
    ((pieceShape i).rotate_left).offsets
        = (pieceShape i).offsets.map (fun o => ⟨o.y, -o.x⟩)
    ∧ ((pieceShape i).rotate_right).offsets
        = (pieceShape i).offsets.map (fun o => ⟨-o.y, o.x⟩)
    ∧ ((((pieceShape i).rotate_left).rotate_left).rotate_left).rotate_left = pieceShape i
    ∧ ((pieceShape i).rotate_left).rotate_right = pieceShape i
    ∧ ((pieceShape i).rotate_right).rotate_left = pieceShape i := by
  decide

/-- A position in column -1 is never free-or-above: it fails the bounds
check and the horizontal fallback condition alike. -/
theorem is_free_or_above_negx (g : Grid) (y : Int) :
    g.is_free_or_above ⟨-1, y⟩ = false := by
  have hx : uidx (-1 : Int) = none := rfl
  have hnone : g.cellAt ⟨-1, y⟩ = none := by
    unfold Grid.cellAt
    rcases h1 : uidx y with _ | yn
    · rfl
    · rw [Option.some_bind]
      rcases h2 : g.grid[yn]? with _ | row
      · rfl
      · rw [Option.some_bind, hx, Option.none_bind]
  unfold Grid.is_free_or_above
  rw [hnone]
  exact decide_eq_false (fun h => absurd h.2.1 (show ¬(0 : Int) ≤ -1 by decide))

/-- The in-bounds region of the board for writes. -/
def inBoundsPos (p : Pos) : Prop :=
  0 ≤ p.y ∧ p.y < 20 ∧ 0 ≤ p.x ∧ p.x < 10

instance (p : Pos) : Decidable (inBoundsPos p) := by
  unfold inBoundsPos; infer_instance

theorem Grid.set_cases (g : Grid) (pos : Pos) (c : Nat) :
    (g.set pos c = (g, false)) ∨
    ∃ yn xn row, g.grid[yn]? = some row ∧ xn < row.length ∧
      g.set pos c = (⟨g.grid.set yn (row.set xn c)⟩, true) := by
  unfold Grid.set
  rcases h1 : uidx pos.y with _ | yn
  · exact Or.inl rfl
  · dsimp only
    rcases h2 : g.grid[yn]? with _ | row
    · exact Or.inl rfl
    · dsimp only
      rcases h3 : uidx pos.x with _ | xn
      · exact Or.inl rfl
      · dsimp only
        by_cases h4 : xn < row.length
        · rw [if_pos h4]
          exact Or.inr ⟨yn, xn, row, h2, h4, rfl⟩
        · rw [if_neg h4]
          exact Or.inl rfl

theorem Grid.wf_set (g : Grid) (hwf : g.WF) (pos : Pos) (c : Nat) :
    (g.set pos c).1.WF := by
  rcases g.set_cases pos c with h | ⟨yn, xn, row, h2, h4, h⟩
  · rw [h]; exact hwf
  · rw [h]
    obtain ⟨hlen, hrow⟩ := hwf
    refine ⟨by rw [List.length_set]; exact hlen, ?_⟩
    intro row' hmem
    rcases List.mem_or_eq_of_mem_set hmem with hmem2 | heq
    · exact hrow _ hmem2
    · rw [heq, List.length_set]
      exact hrow _ (List.getElem?_mem h2)

theorem Grid.cellsOK_set (g : Grid) (hok : g.cellsOK) (pos : Pos) {c : Nat}
    (hc : cellOK c) : (g.set pos c).1.cellsOK := by
  rcases g.set_cases pos c with h | ⟨yn, xn, row, h2, h4, h⟩
  · rw [h]; exact hok
  · rw [h]
    intro row' hmem
    rcases List.mem_or_eq_of_mem_set hmem with hmem2 | heq
    · exact hok _ hmem2
    · intro x hx
      rw [heq] at hx
      rcases List.mem_or_eq_of_mem_set hx with hx2 | hxeq
      · exact hok _ (List.getElem?_mem h2) _ hx2
      · rw [hxeq]; exact hc

/-- A write succeeds exactly on the in-bounds positions. -/
theorem Grid.set_snd (g : Grid) (hwf : g.WF) (pos : Pos) (c : Nat) :
    (g.set pos c).2 = true ↔ inBoundsPos pos := by
  obtain ⟨hlen, hrow⟩ := hwf
  unfold Grid.set inBoundsPos
  rcases lt_or_le pos.y 0 with hy | hy
  · rw [uidx_of_neg hy]
    dsimp only
    constructor
    · intro h; cases h
    · intro h; omega
  · rw [uidx_of_nonneg hy]
    dsimp only
    rcases le_or_lt 20 pos.y with hy2 | hy2
    · have hno : g.grid[pos.y.toNat]? = none := by
        rw [List.getElem?_eq_none]
        rw [hlen]; unfold GAME_GRID_HEIGHT; omega
      rw [hno]
      dsimp only
      constructor
      · intro h; cases h
      · intro h; omega
    · have hyd : pos.y.toNat < g.grid.length := by
        rw [hlen]; unfold GAME_GRID_HEIGHT; omega
      rw [List.getElem?_eq_getElem hyd]
      dsimp only
      rcases lt_or_le pos.x 0 with hx | hx
      · rw [uidx_of_neg hx]
        dsimp only
        constructor
        · intro h; cases h
        · intro h; omega
      · rw [uidx_of_nonneg hx]
        dsimp only
        have hlr : (g.grid[pos.y.toNat]).length = 10 :=
          hrow _ (g.grid.getElem_mem hyd)
        rcases lt_or_le pos.x 10 with hx2 | hx2
        · rw [if_pos (by rw [hlr]; omega)]
          constructor
          · intro _; omega
          · intro _; rfl
        · rw [if_neg (by rw [hlr]; omega)]
          constructor
          · intro h; cases h
          · intro h; omega

theorem lockWrites_wf (c : Nat) (pts : List Pos) (g : Grid) (hwf : g.WF) :
    (lockWrites g c pts).1.WF := by
  induction pts generalizing g with
  | nil => exact hwf
  | cons p rest ih =>
    unfold lockWrites
    dsimp only
    by_cases h : (g.set p c).2
    · rw [if_pos h]; exact ih _ (g.wf_set hwf p c)
    · rw [if_neg h]; exact g.wf_set hwf p c

theorem lockWrites_cellsOK (c : Nat) (hc : cellOK c) (pts : List Pos) (g : Grid)
    (hok : g.cellsOK) : (lockWrites g c pts).1.cellsOK := by
  induction pts generalizing g with
  | nil => exact hok
  | cons p rest ih =>
    unfold lockWrites
    dsimp only
    by_cases h : (g.set p c).2
    · rw [if_pos h]; exact ih _ (g.cellsOK_set hok p hc)
    · rw [if_neg h]; exact g.cellsOK_set hok p hc

/-- The locking loop reports success exactly when every cell of the
piece is in bounds. -/
theorem lockWrites_snd (c : Nat) (pts : List Pos) (g : Grid) (hwf : g.WF) :
    (lockWrites g c pts).2 = true ↔ ∀ p ∈ pts, inBoundsPos p := by
  induction pts generalizing g with
  | nil => simp [lockWrites]
  | cons p rest ih =>
    unfold lockWrites
    dsimp only
    by_cases h : (g.set p c).2
    · rw [if_pos h]
      rw [ih _ (g.wf_set hwf p c)]
      have hp : inBoundsPos p := (g.set_snd hwf p c).mp (by simpa using h)
      simp [hp]
    · rw [if_neg h]
      have hp : ¬inBoundsPos p := by
        intro hin
        exact h ((g.set_snd hwf p c).mpr hin)
      simp only [List.mem_cons]
      constructor
      · intro hfalse; cases hfalse
      · intro hall
        exact absurd (hall p (Or.inl rfl)) hp

/-- On a firing tick with a blocked piece, update runs the lock branch. -/
theorem tick_lock_eq (s : GameState) (cp : MovingPiece)
    (hgo : s.gameover = false) (hcp : s.cur_piece = some cp)
    (hfired : FRAMES_PER_MOVE < s.move_frames + 1)
    (hblock : (cp.piece.points ⟨cp.pos.x, cp.pos.y + 1⟩).all
      s.grid.is_free_or_above = false) :
    s.tick = GameState.lockPiece
      { s with move_frames := s.move_frames + 1 - FRAMES_PER_MOVE } cp := by
  unfold GameState.tick
  simp only [hfired, hgo, hcp, hblock, if_true, Bool.false_eq_true, if_false]

/-- C2: on a firing tick whose piece cannot advance, the piece's cells
are written at the unshifted position; the writes all succeed iff every
cell is in bounds; on a rejected write the loop stops (the writes before
the failure persist), the game-over flag is set and nothing else
changes; on success the active piece is cleared and the touched rows are
checked for clears. -/
theorem lock_event_spec (s : GameState) (cp : MovingPiece) (hwf : s.grid.WF)
    (hgo : s.gameover = false) (hcp : s.cur_piece = some cp)
    (hfired : FRAMES_PER_MOVE < s.move_frames + 1)
    (hblock : (cp.piece.points ⟨cp.pos.x, cp.pos.y + 1⟩).all
      s.grid.is_free_or_above = false) :
    ((lockWrites s.grid cp.piece.colour (cp.piece.points cp.pos)).2 = true ↔
      ∀ p ∈ cp.piece.points cp.pos, inBoundsPos p)
    ∧ ((lockWrites s.grid cp.piece.colour (cp.piece.points cp.pos)).2 = false →
        s.tick = { s with
          move_frames := s.move_frames + 1 - FRAMES_PER_MOVE
          grid := (lockWrites s.grid cp.piece.colour (cp.piece.points cp.pos)).1
          gameover := true })
    ∧ ((lockWrites s.grid cp.piece.colour (cp.piece.points cp.pos)).2 = true →
        s.tick = { s with
          move_frames := s.move_frames + 1 - FRAMES_PER_MOVE
          grid := (clearLines
            (lockWrites s.grid cp.piece.colour (cp.piece.points cp.pos)).1
            (lineSet (cp.piece.points cp.pos))).1
          cur_piece := none
          score := s.score + (scoreFor (clearLines
            (lockWrites s.grid cp.piece.colour (cp.piece.points cp.pos)).1
            (lineSet (cp.piece.points cp.pos))).2).getD 0 }) := by
  have htick := tick_lock_eq s cp hgo hcp hfired hblock
  refine ⟨lockWrites_snd _ _ _ hwf, ?_, ?_⟩
  · intro hfail
    rw [htick]
    unfold GameState.lockPiece
    dsimp only
    rw [hfail]
    rfl
  · intro hok
    rw [htick]
    unfold GameState.lockPiece
    dsimp only
    rw [hok]
    rfl

/-- On a firing tick with an unobstructed piece, update commits the
downward shift. -/
theorem tick_fall_eq (s : GameState) (cp : MovingPiece)
    (hgo : s.gameover = false) (hcp : s.cur_piece = some cp)
    (hfired : FRAMES_PER_MOVE < s.move_frames + 1)
    (hfree : (cp.piece.points ⟨cp.pos.x, cp.pos.y + 1⟩).all
      s.grid.is_free_or_above = true) :
    s.tick = { s with
      move_frames := s.move_frames + 1 - FRAMES_PER_MOVE
      cur_piece := some { cp with pos := ⟨cp.pos.x, cp.pos.y + 1⟩ } } := by
  unfold GameState.tick
  simp only [hfired, hgo, hcp, hfree, if_true, Bool.false_eq_true, if_false]

/-- On a non-firing tick with an active piece, only the timer changes. -/
theorem tick_nofire_eq (s : GameState) (cp : MovingPiece)
    (hgo : s.gameover = false) (hcp : s.cur_piece = some cp)
    (hnf : ¬FRAMES_PER_MOVE < s.move_frames + 1) :
    s.tick = { s with move_frames := s.move_frames + 1 } := by
  unfold GameState.tick
  simp only [hgo, hcp, hnf, if_true, Bool.false_eq_true, if_false]

/-- Once game over, a tick only advances the timer. -/
theorem tick_gameover_eq (s : GameState) (hgo : s.gameover = true) :
    s.tick = { s with move_frames :=
      if FRAMES_PER_MOVE < s.move_frames + 1
      then s.move_frames + 1 - FRAMES_PER_MOVE else s.move_frames + 1 } := by
  unfold GameState.tick
  simp only [hgo, eq_self_iff_true, if_true]

/-- With no active piece (and not game over), a tick spawns. -/
theorem tick_spawn_eq (s : GameState) (hgo : s.gameover = false)
    (hcp : s.cur_piece = none) :
    s.tick = GameState.spawn { s with move_frames :=
      if FRAMES_PER_MOVE < s.move_frames + 1
      then s.move_frames + 1 - FRAMES_PER_MOVE else s.move_frames + 1 } := by
  unfold GameState.tick
  simp only [hgo, hcp, Bool.false_eq_true, if_false]

theorem mv_score (s : GameState) (m : Move) : (s.mv m).score = s.score := by
  unfold GameState.mv
  rcases hcp : s.cur_piece with _ | mp
  · rfl
  · dsimp only
    by_cases h : ((mvCandidate mp m).piece.points
        (mvCandidate mp m).pos).all s.grid.is_free_or_above = true
    · rw [if_pos h]
    · rw [if_neg h]

theorem key_score (s : GameState) (k : Key) :
    (s.key_down_event k).score = s.score := by
  unfold GameState.key_down_event
  by_cases hgo : s.gameover = true
  · rw [if_pos hgo]
  · rw [if_neg hgo]
    cases k
    all_goals first
      | exact mv_score ..
      | rfl

theorem score_le_lockPiece (s : GameState) (cp : MovingPiece) :
    s.score ≤ (s.lockPiece cp).score := by
  unfold GameState.lockPiece
  dsimp only
  by_cases h : (lockWrites s.grid cp.piece.colour (cp.piece.points cp.pos)).2 = true
  · rw [if_pos h]
    exact Nat.le_add_right ..
  · rw [if_neg h]

theorem score_le_tick (s : GameState) : s.score ≤ s.tick.score := by
  by_cases hgo : s.gameover = true
  · rw [tick_gameover_eq s hgo]
  · have hgo' : s.gameover = false := by
      cases h : s.gameover
      · rfl
      · exact absurd h hgo
    rcases hcp : s.cur_piece with _ | cp
    · rw [tick_spawn_eq s hgo' hcp]; exact le_refl _
    · by_cases hf : FRAMES_PER_MOVE < s.move_frames + 1
      · by_cases hfree : (cp.piece.points ⟨cp.pos.x, cp.pos.y + 1⟩).all
            s.grid.is_free_or_above = true
        · rw [tick_fall_eq s cp hgo' hcp hf hfree]
        · have hblock : (cp.piece.points ⟨cp.pos.x, cp.pos.y + 1⟩).all
              s.grid.is_free_or_above = false := by
            cases h : (cp.piece.points ⟨cp.pos.x, cp.pos.y + 1⟩).all
                s.grid.is_free_or_above
            · rfl
            · exact absurd h hfree
          rw [tick_lock_eq s cp hgo' hcp hf hblock]
          exact score_le_lockPiece
            { s with move_frames := s.move_frames + 1 - FRAMES_PER_MOVE } cp
      · rw [tick_nofire_eq s cp hgo' hcp hf]

theorem score_le_step (s : GameState) (e : Event) : s.score ≤ (s.step e).score := by
  cases e
  case tick => exact score_le_tick s
  case key k => rw [GameState.step, key_score]

theorem score_le_run (evs : List Event) (s : GameState) :
    s.score ≤ (s.run evs).score := by
  induction evs generalizing s with
  | nil => exact le_refl _
  | cons e rest ih => exact le_trans (score_le_step s e) (ih (s.step e))

theorem scoreFor_getD (n : Nat) :
    (scoreFor n).getD 0 = (match n with
      | 0 => 0 | 1 => 40 | 2 => 100 | 3 => 300 | 4 => 1200 | _ + 5 => 0) := by
  match n with
  | 0 | 1 | 2 | 3 | 4 => rfl
  | _ + 5 => rfl

/-- C5: a lock event adds exactly the table amount 0/40/100/300/1200 for
the rows cleared by that lock; key commands never change the score, and
the score is monotonically non-decreasing along every run. -/
theorem score_table_spec (s : GameState) (cp : MovingPiece)
    (hgo : s.gameover = false) (hcp : s.cur_piece = some cp)
    (hfired : FRAMES_PER_MOVE < s.move_frames + 1)
    (hblock : (cp.piece.points ⟨cp.pos.x, cp.pos.y + 1⟩).all
      s.grid.is_free_or_above = false)
    (hok : (lockWrites s.grid cp.piece.colour (cp.piece.points cp.pos)).2 = true) :
    s.tick.score = s.score +
      (match (clearLines
          (lockWrites s.grid cp.piece.colour (cp.piece.points cp.pos)).1
          (lineSet (cp.piece.points cp.pos))).2 with
        | 0 => 0 | 1 => 40 | 2 => 100 | 3 => 300 | 4 => 1200 | _ + 5 => 0)
    ∧ (∀ (t : GameState) (k : Key), (t.key_down_event k).score = t.score)
    ∧ (∀ (t : GameState) (e : Event), t.score ≤ (t.step e).score)
    ∧ (∀ (t : GameState) (evs : List Event), t.score ≤ (t.run evs).score) := by
  refine ⟨?_, key_score, score_le_step, fun t evs => score_le_run evs t⟩
  rw [tick_lock_eq s cp hgo hcp hfired hblock]
  unfold GameState.lockPiece
  dsimp only
  rw [if_pos hok, ← scoreFor_getD]

theorem clearLines_le_length (l : List Int) (g : Grid) :
    (clearLines g l).2 ≤ l.length := by
  induction l generalizing g with
  | nil => exact le_refl _
  | cons y rest ih =>
    unfold clearLines
    dsimp only
    have h2 := ih (g.check_for_line y.toNat).1
    by_cases h : (g.check_for_line y.toNat).2 = true
    · rw [if_pos h]
      simp only [List.length_cons]
      omega
    · rw [if_neg h]
      simp only [List.length_cons]
      omega

/-- C6: a 4-cell piece touches at most 4 distinct rows, so a lock clears
at most 4 rows and the score lookup never reaches the panic branch. -/
theorem cleared_rows_le_four (g : Grid) (p : Piece) (pos : Pos)
    (h4 : p.offsets.length = 4) :
    (clearLines g (lineSet (p.points pos))).2 ≤ 4
    ∧ (scoreFor (clearLines g (lineSet (p.points pos))).2).isSome = true := by
  have hlen : (lineSet (p.points pos)).length ≤ 4 := by
    unfold lineSet
    rw [Finset.length_sort]
    calc ((p.points pos).map Pos.y).toFinset.card
        ≤ ((p.points pos).map Pos.y).length := List.toFinset_card_le _
      _ = (p.points pos).length := List.length_map ..
      _ = 4 := by unfold Piece.points; rw [List.length_map, h4]
  have hle : (clearLines g (lineSet (p.points pos))).2 ≤ 4 :=
    le_trans (clearLines_le_length _ g) hlen
  refine ⟨hle, ?_⟩
  have hall : ∀ n, n ≤ 4 → (scoreFor n).isSome = true := by
    intro n hn
    interval_cases n <;> rfl
  exact hall _ hle

/-- C7: a move or rotate command builds a candidate piece and commits it
iff every absolute cell of the candidate is free-or-above, otherwise the
whole state is unchanged; a MoveLeft with a cell already in column 0 is
always rejected. -/
theorem mv_command_spec (s : GameState) (cp : MovingPiece)
    (hcp : s.cur_piece = some cp) (m : Move) :
    (((mvCandidate cp m).piece.points (mvCandidate cp m).pos).all
        s.grid.is_free_or_above = true →
      s.mv m = { s with cur_piece := some (mvCandidate cp m) })
    ∧ (((mvCandidate cp m).piece.points (mvCandidate cp m).pos).all
        s.grid.is_free_or_above = false →
      s.mv m = s)
    ∧ ((∃ p ∈ cp.piece.points cp.pos, p.x = 0) → s.mv Move.Left = s) := by
  refine ⟨?_, ?_, ?_⟩
  · intro h
    simp [GameState.mv, hcp, h]
  · intro h
    simp [GameState.mv, hcp, h]
  · rintro ⟨p, hpmem, hpx⟩
    unfold Piece.points at hpmem
    obtain ⟨q, hq, hpq⟩ := List.mem_map.mp hpmem
    have hqx : cp.pos.x + q.x = 0 := by
      have := congrArg Pos.x hpq
      simp at this
      omega
    have hfalse : ((mvCandidate cp Move.Left).piece.points
        (mvCandidate cp Move.Left).pos).all s.grid.is_free_or_above = false := by
      apply List.all_eq_false.mpr
      refine ⟨⟨cp.pos.x - 1 + q.x, cp.pos.y + q.y⟩, ?_, ?_⟩
      · exact List.mem_map.mpr ⟨q, hq, rfl⟩
      · have hxeq : (⟨cp.pos.x - 1 + q.x, cp.pos.y + q.y⟩ : Pos)
            = ⟨-1, cp.pos.y + q.y⟩ := by
          have : cp.pos.x - 1 + q.x = -1 := by omega
          rw [this]
        rw [hxeq, is_free_or_above_negx]
        simp
    simp [GameState.mv, hcp, hfalse]

theorem gameover_step (s : GameState) (h : s.gameover = true) (e : Event) :
    (s.step e).gameover = true ∧ (s.step e).grid = s.grid
    ∧ (s.step e).score = s.score ∧ (s.step e).cur_piece = s.cur_piece
    ∧ (s.step e).next_piece = s.next_piece := by
  cases e
  case tick =>
    unfold GameState.step
    dsimp only
    rw [tick_gameover_eq s h]
    exact ⟨h, rfl, rfl, rfl, rfl⟩
  case key k =>
    unfold GameState.step GameState.key_down_event
    dsimp only
    rw [if_pos h]
    exact ⟨h, rfl, rfl, rfl, rfl⟩

/-- C8: once the game-over flag is set, every further tick or key event
leaves the grid, score, active piece and next piece unchanged and the
flag remains set. -/
theorem gameover_terminal (s : GameState) (h : s.gameover = true)
    (evs : List Event) :
    (s.run evs).gameover = true ∧ (s.run evs).grid = s.grid
    ∧ (s.run evs).score = s.score ∧ (s.run evs).cur_piece = s.cur_piece
    ∧ (s.run evs).next_piece = s.next_piece := by
  induction evs generalizing s with
  | nil => exact ⟨h, rfl, rfl, rfl, rfl⟩
  | cons e rest ih =>
    obtain ⟨h1, h2, h3, h4, h5⟩ := gameover_step s h e
    obtain ⟨g1, g2, g3, g4, g5⟩ := ih (s.step e) h1
    rw [GameState.run]
    exact ⟨g1, by rw [g2, h2], by rw [g3, h3], by rw [g4, h4], by rw [g5, h5]⟩

/-- C9 (amended): the tick increments the timer; the piece moves only on
ticks where the incremented timer strictly exceeds the period 18 (the
period is then subtracted, keeping the remainder); at or below 18
nothing but the timer changes; a soft-drop press adds half a period to
the timer without touching the piece or the grid. -/
theorem tick_timer_spec (s : GameState) (cp : MovingPiece)
    (hgo : s.gameover = false) (hcp : s.cur_piece = some cp) :
    (s.move_frames + 1 ≤ FRAMES_PER_MOVE →
      s.tick.move_frames = s.move_frames + 1
      ∧ s.tick.cur_piece = some cp ∧ s.tick.grid = s.grid
      ∧ s.tick.score = s.score)
    ∧ (FRAMES_PER_MOVE < s.move_frames + 1 →
        s.tick.move_frames = s.move_frames + 1 - FRAMES_PER_MOVE
        ∧ ((cp.piece.points ⟨cp.pos.x, cp.pos.y + 1⟩).all
              s.grid.is_free_or_above = true →
            s.tick.cur_piece = some { cp with pos := ⟨cp.pos.x, cp.pos.y + 1⟩ }
            ∧ s.tick.grid = s.grid))
    ∧ ((s.key_down_event Key.softDrop).move_frames
          = s.move_frames + FRAMES_PER_MOVE / 2
       ∧ (s.key_down_event Key.softDrop).cur_piece = s.cur_piece
       ∧ (s.key_down_event Key.softDrop).grid = s.grid) := by
  refine ⟨?_, ?_, ?_⟩
  · intro hle
    rw [tick_nofire_eq s cp hgo hcp (by omega)]
    exact ⟨rfl, hcp, rfl, rfl⟩
  · intro hfired
    constructor
    · by_cases hfree : (cp.piece.points ⟨cp.pos.x, cp.pos.y + 1⟩).all
          s.grid.is_free_or_above = true
      · rw [tick_fall_eq s cp hgo hcp hfired hfree]
      · have hblock : (cp.piece.points ⟨cp.pos.x, cp.pos.y + 1⟩).all
            s.grid.is_free_or_above = false := by
          cases hb : (cp.piece.points ⟨cp.pos.x, cp.pos.y + 1⟩).all
              s.grid.is_free_or_above
          · rfl
          · exact absurd hb hfree
        rw [tick_lock_eq s cp hgo hcp hfired hblock]
        unfold GameState.lockPiece
        dsimp only
        by_cases hw : (lockWrites s.grid cp.piece.colour
            (cp.piece.points cp.pos)).2 = true
        · rw [if_pos hw]
        · rw [if_neg hw]
    · intro hfree
      rw [tick_fall_eq s cp hgo hcp hfired hfree]
      exact ⟨rfl, rfl⟩
  · unfold GameState.key_down_event
    rw [if_neg (by rw [hgo]; exact Bool.false_ne_true)]
    exact ⟨rfl, rfl, rfl⟩

/-- A concrete state one tick short of the period: timer 17, an I-piece
at (5, 0) on an empty board, game running. -/
def stateTimer : GameState :=
  { grid := Grid.new
    gameover := false
    move_frames := 17
    score := 0
    rngStream := fun _ => 0
    rngIdx := 0
    next_piece := pieceShape 0
    cur_piece := some ⟨⟨5, 0⟩, pieceShape 1⟩ }

/-- C9 counterexample: on the tick where the timer reaches exactly the
period 18, the claim demands a reset and a downward move; the code does
neither — the timer stays at 18 and the piece does not move, even though
every cell below it is free. -/
theorem tick_timer_claim_cex :
    stateTimer.move_frames + 1 = FRAMES_PER_MOVE
    ∧ ((pieceShape 1).points ⟨5, 1⟩).all stateTimer.grid.is_free_or_above = true
    ∧ stateTimer.tick.move_frames = FRAMES_PER_MOVE
    ∧ stateTimer.tick.cur_piece = some ⟨⟨5, 0⟩, pieceShape 1⟩
    ∧ ¬stateTimer.tick.cur_piece = some ⟨⟨5, 1⟩, pieceShape 1⟩ := by
  refine ⟨rfl, by decide, rfl, by decide, by decide⟩

theorem shiftRows_mem (g : List (List Nat)) (y : Nat) :
    ∀ row ∈ shiftRows g y, row ∈ g ∨ row = [] := by
  induction y generalizing g with
  | zero => exact fun row h => Or.inl h
  | succ n ih =>
    intro row h
    rw [shiftRows] at h
    rcases ih _ row h with h2 | h2
    · rcases List.mem_or_eq_of_mem_set h2 with h3 | h3
      · exact Or.inl h3
      · rcases h4 : g[n]? with _ | r
        · rw [h4] at h3
          exact Or.inr h3
        · rw [h4] at h3
          exact Or.inl (h3 ▸ List.getElem?_mem h4)
    · exact Or.inr h2

theorem cellsOK_check_for_line (g : Grid) (hok : g.cellsOK) (y : Nat) :
    (g.check_for_line y).1.cellsOK := by
  unfold Grid.check_for_line
  dsimp only
  by_cases h : (g.grid[y]?.getD []).all (fun c => decide (c < NUM_COLOURS)) = true
  · rw [if_pos h]
    intro row hmem c hc
    rcases List.mem_or_eq_of_mem_set hmem with h2 | h2
    · rcases shiftRows_mem g.grid y row h2 with h3 | h3
      · exact hok _ h3 _ hc
      · rw [h3] at hc
        cases hc
    · rw [h2] at hc
      rw [List.eq_of_mem_replicate hc]
      exact Or.inl rfl
  · rw [if_neg h]
    exact hok

theorem cellsOK_clearLines (l : List Int) (g : Grid) (hok : g.cellsOK) :
    (clearLines g l).1.cellsOK := by
  induction l generalizing g with
  | nil => exact hok
  | cons y rest ih => exact ih _ (cellsOK_check_for_line g hok y.toNat)

theorem mvCandidate_colour (mp : MovingPiece) (m : Move) :
    (mvCandidate mp m).piece.colour = mp.piece.colour := by
  cases m <;> rfl

/-- The value-level state invariant: all grid cells are 255 or a colour
index, and both pieces carry a colour index below NUM_COLOURS. -/
def GameState.Inv (s : GameState) : Prop :=
  s.grid.cellsOK ∧ s.next_piece.colour < NUM_COLOURS
  ∧ ∀ mp, s.cur_piece = some mp → mp.piece.colour < NUM_COLOURS

theorem inv_mv (s : GameState) (hinv : s.Inv) (m : Move) : (s.mv m).Inv := by
  obtain ⟨hg, hn, hc⟩ := hinv
  unfold GameState.mv
  rcases hcp : s.cur_piece with _ | mp
  · exact ⟨hg, hn, fun mp h => hc mp (hcp ▸ h)⟩
  · dsimp only
    by_cases h : ((mvCandidate mp m).piece.points
        (mvCandidate mp m).pos).all s.grid.is_free_or_above = true
    · rw [if_pos h]
      refine ⟨hg, hn, fun mp' h' => ?_⟩
      have : mp' = mvCandidate mp m := by
        injection h' with h''
        exact h''.symm
      rw [this, mvCandidate_colour]
      exact hc mp hcp
    · rw [if_neg h]
      exact ⟨hg, hn, fun mp' h' => hc mp' h'⟩

theorem inv_key (s : GameState) (hinv : s.Inv) (k : Key) :
    (s.key_down_event k).Inv := by
  unfold GameState.key_down_event
  by_cases hgo : s.gameover = true
  · rw [if_pos hgo]
    exact hinv
  · rw [if_neg hgo]
    cases k
    all_goals first
      | exact inv_mv s hinv _
      | exact ⟨hinv.1, hinv.2.1, hinv.2.2⟩

theorem inv_lockPiece (s : GameState) (cp : MovingPiece) (hinv : s.Inv)
    (hcol : cp.piece.colour < NUM_COLOURS) : (s.lockPiece cp).Inv := by
  obtain ⟨hg, hn, hc⟩ := hinv
  have hcell : cellOK cp.piece.colour := Or.inr hcol
  unfold GameState.lockPiece
  dsimp only
  by_cases h : (lockWrites s.grid cp.piece.colour (cp.piece.points cp.pos)).2 = true
  · rw [if_pos h]
    refine ⟨?_, hn, fun mp h' => by cases h'⟩
    exact cellsOK_clearLines _ _
      (lockWrites_cellsOK _ hcell _ _ hg)
  · rw [if_neg h]
    refine ⟨lockWrites_cellsOK _ hcell _ _ hg, hn, hc⟩

theorem inv_tick (s : GameState) (hinv : s.Inv) : s.tick.Inv := by
  obtain ⟨hg, hn, hc⟩ := hinv
  by_cases hgo : s.gameover = true
  · rw [tick_gameover_eq s hgo]
    exact ⟨hg, hn, hc⟩
  · have hgo' : s.gameover = false := by
      cases h : s.gameover
      · rfl
      · exact absurd h hgo
    rcases hcp : s.cur_piece with _ | cp
    · rw [tick_spawn_eq s hgo' hcp]
      unfold GameState.spawn
      refine ⟨hg, Fin.isLt _, fun mp h' => ?_⟩
      have : mp = MovingPiece.new s.next_piece := by
        injection h' with h''
        exact h''.symm
      rw [this]
      exact hn
    · have hcol : cp.piece.colour < NUM_COLOURS := hc cp hcp
      by_cases hf : FRAMES_PER_MOVE < s.move_frames + 1
      · by_cases hfree : (cp.piece.points ⟨cp.pos.x, cp.pos.y + 1⟩).all
            s.grid.is_free_or_above = true
        · rw [tick_fall_eq s cp hgo' hcp hf hfree]
          refine ⟨hg, hn, fun mp h' => ?_⟩
          have : mp = { cp with pos := ⟨cp.pos.x, cp.pos.y + 1⟩ } := by
            injection h' with h''
            exact h''.symm
          rw [this]
          exact hcol
        · have hblock : (cp.piece.points ⟨cp.pos.x, cp.pos.y + 1⟩).all
              s.grid.is_free_or_above = false := by
            cases hb : (cp.piece.points ⟨cp.pos.x, cp.pos.y + 1⟩).all
                s.grid.is_free_or_above
            · rfl
            · exact absurd hb hfree
          rw [tick_lock_eq s cp hgo' hcp hf hblock]
          exact inv_lockPiece _ cp ⟨hg, hn, fun mp h' => hc mp h'⟩ hcol
      · rw [tick_nofire_eq s cp hgo' hcp hf]
        exact ⟨hg, hn, hc⟩

theorem inv_step (s : GameState) (hinv : s.Inv) (e : Event) : (s.step e).Inv := by
  cases e
  case tick => exact inv_tick s hinv
  case key k => exact inv_key s hinv k

theorem inv_run (evs : List Event) (s : GameState) (hinv : s.Inv) :
    (s.run evs).Inv := by
  induction evs generalizing s with
  | nil => exact hinv
  | cons e rest ih => exact ih _ (inv_step s hinv e)

theorem inv_new (stream : Nat → Fin 7) : (GameState.new stream).Inv := by
  refine ⟨?_, Fin.isLt _, fun mp h => by cases h⟩
  intro row hmem c hc
  rw [List.eq_of_mem_replicate hmem] at hc
  rw [List.eq_of_mem_replicate hc]
  exact Or.inl rfl

/-- C10: in every state reachable from a fresh game by ticks and key
events, every grid cell is the empty sentinel 255 or a locked colour
index below NUM_COLOURS (locking writes only piece colours, which stay
below NUM_COLOURS, and collapse introduces only 255-rows). -/
theorem reachable_cells_wf (stream : Nat → Fin 7) (evs : List Event) :
    ∀ row ∈ ((GameState.new stream).run evs).grid.grid, ∀ c ∈ row,
      c = 255 ∨ c < NUM_COLOURS :=
  (inv_run evs (GameState.new stream) (inv_new stream)).1

/-! ### Concrete witness scenarios -/

/-- A lock scenario: timer about to fire, an I-piece resting on the
bottom row of an empty board. -/
def stateLock : GameState :=
  { grid := Grid.new
    gameover := false
    move_frames := 18
    score := 0
    rngStream := fun _ => 0
    rngIdx := 0
    next_piece := pieceShape 0
    cur_piece := some ⟨⟨4, 19⟩, pieceShape 1⟩ }

def cpLock : MovingPiece := ⟨⟨4, 19⟩, pieceShape 1⟩

/-- A game-over state used to exercise the terminal-state theorem. -/
def stateOver : GameState :=
  { grid := Grid.new
    gameover := true
    move_frames := 0
    score := 7
    rngStream := fun _ => 0
    rngIdx := 0
    next_piece := pieceShape 2
    cur_piece := none }

theorem check_for_line_spec_witness :
    Grid.WF Grid.new ∧ 0 < GAME_GRID_HEIGHT
    ∧ (((Grid.new.check_for_line 0).2 = true ↔
          ∀ c ∈ Grid.new.grid[0]?.getD [], c < NUM_COLOURS)
      ∧ ((Grid.new.check_for_line 0).2 = true →
          (Grid.new.check_for_line 0).1.grid[0]? = some (List.replicate 10 255)
          ∧ (∀ k, 1 ≤ k → k ≤ 0 →
              (Grid.new.check_for_line 0).1.grid[k]? = Grid.new.grid[k - 1]?)
          ∧ (∀ k, 0 < k →
              (Grid.new.check_for_line 0).1.grid[k]? = Grid.new.grid[k]?))
      ∧ ((Grid.new.check_for_line 0).2 = false →
          (Grid.new.check_for_line 0).1 = Grid.new)) :=
  ⟨by decide, by decide, check_for_line_spec Grid.new (by decide) 0 (by decide)⟩

theorem is_free_or_above_spec_witness :
    Grid.WF Grid.new ∧ Grid.cellsOK Grid.new
    ∧ (Grid.new.is_free_or_above ⟨3, 5⟩ = true ↔
        ((0 ≤ (⟨3, 5⟩ : Pos).y ∧ (⟨3, 5⟩ : Pos).y < 20
            ∧ 0 ≤ (⟨3, 5⟩ : Pos).x ∧ (⟨3, 5⟩ : Pos).x < 10
            ∧ Grid.new.cellAt ⟨3, 5⟩ = some 255)
          ∨ ((⟨3, 5⟩ : Pos).y < 0 ∧ 0 ≤ (⟨3, 5⟩ : Pos).x ∧ (⟨3, 5⟩ : Pos).x < 10))) :=
  ⟨by decide, by decide, is_free_or_above_spec Grid.new (by decide) (by decide) ⟨3, 5⟩⟩

theorem lock_event_spec_witness :
    stateLock.grid.WF
    ∧ stateLock.gameover = false
    ∧ stateLock.cur_piece = some cpLock
    ∧ FRAMES_PER_MOVE < stateLock.move_frames + 1
    ∧ (cpLock.piece.points ⟨cpLock.pos.x, cpLock.pos.y + 1⟩).all
        stateLock.grid.is_free_or_above = false
    ∧ (((lockWrites stateLock.grid cpLock.piece.colour
          (cpLock.piece.points cpLock.pos)).2 = true ↔
        ∀ p ∈ cpLock.piece.points cpLock.pos, inBoundsPos p)
      ∧ ((lockWrites stateLock.grid cpLock.piece.colour
            (cpLock.piece.points cpLock.pos)).2 = false →
          stateLock.tick = { stateLock with
            move_frames := stateLock.move_frames + 1 - FRAMES_PER_MOVE
            grid := (lockWrites stateLock.grid cpLock.piece.colour
              (cpLock.piece.points cpLock.pos)).1
            gameover := true })
      ∧ ((lockWrites stateLock.grid cpLock.piece.colour
            (cpLock.piece.points cpLock.pos)).2 = true →
          stateLock.tick = { stateLock with
            move_frames := stateLock.move_frames + 1 - FRAMES_PER_MOVE
            grid := (clearLines
              (lockWrites stateLock.grid cpLock.piece.colour
                (cpLock.piece.points cpLock.pos)).1
              (lineSet (cpLock.piece.points cpLock.pos))).1
            cur_piece := none
            score := stateLock.score + (scoreFor (clearLines
              (lockWrites stateLock.grid cpLock.piece.colour
                (cpLock.piece.points cpLock.pos)).1
              (lineSet (cpLock.piece.points cpLock.pos))).2).getD 0 })) :=
  ⟨by decide, rfl, rfl, by decide, by decide,
    lock_event_spec stateLock cpLock (by decide) rfl rfl (by decide) (by decide)⟩

theorem score_table_spec_witness :
    stateLock.gameover = false
    ∧ stateLock.cur_piece = some cpLock
    ∧ FRAMES_PER_MOVE < stateLock.move_frames + 1
    ∧ (cpLock.piece.points ⟨cpLock.pos.x, cpLock.pos.y + 1⟩).all
        stateLock.grid.is_free_or_above = false
    ∧ (lockWrites stateLock.grid cpLock.piece.colour
        (cpLock.piece.points cpLock.pos)).2 = true
    ∧ (stateLock.tick.score = stateLock.score +
        (match (clearLines
            (lockWrites stateLock.grid cpLock.piece.colour
              (cpLock.piece.points cpLock.pos)).1
            (lineSet (cpLock.piece.points cpLock.pos))).2 with
          | 0 => 0 | 1 => 40 | 2 => 100 | 3 => 300 | 4 => 1200 | _ + 5 => 0)
      ∧ (∀ (t : GameState) (k : Key), (t.key_down_event k).score = t.score)
      ∧ (∀ (t : GameState) (e : Event), t.score ≤ (t.step e).score)
      ∧ (∀ (t : GameState) (evs : List Event), t.score ≤ (t.run evs).score)) :=
  ⟨rfl, rfl, by decide, by decide, by decide,
    score_table_spec stateLock cpLock rfl rfl (by decide) (by decide) (by decide)⟩

theorem cleared_rows_le_four_witness :
    (pieceShape 1).offsets.length = 4
    ∧ ((clearLines Grid.new (lineSet ((pieceShape 1).points ⟨5, 5⟩))).2 ≤ 4
      ∧ (scoreFor (clearLines Grid.new
          (lineSet ((pieceShape 1).points ⟨5, 5⟩))).2).isSome = true) :=
  ⟨by decide, cleared_rows_le_four Grid.new (pieceShape 1) ⟨5, 5⟩ (by decide)⟩

theorem mv_command_spec_witness :
    stateTimer.cur_piece = some (⟨⟨5, 0⟩, pieceShape 1⟩ : MovingPiece)
    ∧ ((((mvCandidate ⟨⟨5, 0⟩, pieceShape 1⟩ Move.Left).piece.points
          (mvCandidate ⟨⟨5, 0⟩, pieceShape 1⟩ Move.Left).pos).all
            stateTimer.grid.is_free_or_above = true →
        stateTimer.mv Move.Left = { stateTimer with
          cur_piece := some (mvCandidate ⟨⟨5, 0⟩, pieceShape 1⟩ Move.Left) })
      ∧ (((mvCandidate ⟨⟨5, 0⟩, pieceShape 1⟩ Move.Left).piece.points
          (mvCandidate ⟨⟨5, 0⟩, pieceShape 1⟩ Move.Left).pos).all
            stateTimer.grid.is_free_or_above = false →
        stateTimer.mv Move.Left = stateTimer)
      ∧ ((∃ p ∈ (pieceShape 1).points (⟨5, 0⟩ : Pos), p.x = 0) →
        stateTimer.mv Move.Left = stateTimer)) :=
  ⟨rfl, mv_command_spec stateTimer ⟨⟨5, 0⟩, pieceShape 1⟩ rfl Move.Left⟩

theorem gameover_terminal_witness :
    stateOver.gameover = true
    ∧ ((stateOver.run [Event.tick, Event.key Key.left]).gameover = true
      ∧ (stateOver.run [Event.tick, Event.key Key.left]).grid = stateOver.grid
      ∧ (stateOver.run [Event.tick, Event.key Key.left]).score = stateOver.score
      ∧ (stateOver.run [Event.tick, Event.key Key.left]).cur_piece
          = stateOver.cur_piece
      ∧ (stateOver.run [Event.tick, Event.key Key.left]).next_piece
          = stateOver.next_piece) :=
  ⟨rfl, gameover_terminal stateOver rfl [Event.tick, Event.key Key.left]⟩

theorem tick_timer_spec_witness :
    stateTimer.gameover = false
    ∧ stateTimer.cur_piece = some (⟨⟨5, 0⟩, pieceShape 1⟩ : MovingPiece)
    ∧ ((stateTimer.move_frames + 1 ≤ FRAMES_PER_MOVE →
          stateTimer.tick.move_frames = stateTimer.move_frames + 1
          ∧ stateTimer.tick.cur_piece = some (⟨⟨5, 0⟩, pieceShape 1⟩ : MovingPiece)
          ∧ stateTimer.tick.grid = stateTimer.grid
          ∧ stateTimer.tick.score = stateTimer.score)
      ∧ (FRAMES_PER_MOVE < stateTimer.move_frames + 1 →
          stateTimer.tick.move_frames
            = stateTimer.move_frames + 1 - FRAMES_PER_MOVE
          ∧ (((pieceShape 1).points ⟨(5 : Int), (0 : Int) + 1⟩).all
                stateTimer.grid.is_free_or_above = true →
              stateTimer.tick.cur_piece
                = some (⟨⟨5, (0 : Int) + 1⟩, pieceShape 1⟩ : MovingPiece)
              ∧ stateTimer.tick.grid = stateTimer.grid))
      ∧ ((stateTimer.key_down_event Key.softDrop).move_frames
            = stateTimer.move_frames + FRAMES_PER_MOVE / 2
        ∧ (stateTimer.key_down_event Key.softDrop).cur_piece
            = stateTimer.cur_piece
        ∧ (stateTimer.key_down_event Key.softDrop).grid = stateTimer.grid)) :=
  ⟨rfl, rfl, tick_timer_spec stateTimer ⟨⟨5, 0⟩, pieceShape 1⟩ rfl rfl⟩

theorem reachable_cells_wf_witness :
    (List.replicate 10 255) ∈ ((GameState.new (fun _ => 0)).run [Event.tick]).grid.grid
    ∧ (255 : Nat) ∈ (List.replicate 10 255 : List Nat)
    ∧ ((255 : Nat) = 255 ∨ (255 : Nat) < NUM_COLOURS) :=
  ⟨by decide, by decide,
    reachable_cells_wf (fun _ => 0) [Event.tick] (List.replicate 10 255)
      (by decide) 255 (by decide)⟩
